import Mathlib

/-!
Shallow embedding of the gestor-de-notas application core: the user model
with its login-attempt lockout machinery (models/User.js), the passport
local-strategy verify callback (the passport configuration file), and the
ownership-scoped note handling (controllers/notes.controller.js together
with models/Note.js).

Timestamps are modelled as natural numbers (milliseconds since the epoch),
the document store as a list of documents, and bcrypt comparison as an
arbitrary boolean-valued function passed in as a parameter.
-/

namespace Gestor

/-- A user document (UserSchema in models/User.js).  `password` holds the
stored bcrypt digest; it is `none` when the digest is absent from the
document (the field has `select: false`, so it is only present when
explicitly selected). -/
structure User where
  name : String
  email : String
  password : Option String
  isActive : Bool
  loginAttempts : Nat
  lockUntil : Option Nat
  lastLogin : Option Nat
  deriving Repr, DecidableEq

/-- Lock window applied by `updateLoginAttempts`: 30 minutes in
milliseconds (`30 * 60 * 1000` in models/User.js). -/
def lockDurationMs : Nat := 30 * 60 * 1000

/-- `UserSchema.methods.isLocked` (models/User.js):
`Boolean(this.lockUntil && this.lockUntil > Date.now())`. -/
def User.isLocked (u : User) (now : Nat) : Bool :=
  match u.lockUntil with
  | some t => decide (now < t)
  | none => false

/-- `UserSchema.methods.updateLoginAttempts` (models/User.js).  On a
successful login the counters are reset and `lastLogin` is stamped; on a
failure `loginAttempts` is incremented unconditionally and, once it
reaches 5, `lockUntil` is set to 30 minutes after the current time.  The
method performs no lock check of its own. -/
def User.updateLoginAttempts (u : User) (isSuccessful : Bool) (now : Nat) : User :=
  if isSuccessful then
    { u with loginAttempts := 0, lockUntil := none, lastLogin := some now }
  else
    let u1 : User := { u with loginAttempts := u.loginAttempts + 1 }
    if 5 ≤ u1.loginAttempts then
      { u1 with lockUntil := some (now + lockDurationMs) }
    else
      u1

/-- Text of the error thrown by `matchPassword` when the digest is not on
the document. -/
def missingDigestMsg : String :=
  "La contraseña del usuario no está disponible en el documento. Use User.findOne().select(\"+password\")"

/-- Outcome of `matchPassword`: either a returned boolean or a thrown
error carrying its message. -/
inductive MatchResult where
  | ok (isMatch : Bool)
  | thrown (msg : String)
  deriving Repr, DecidableEq

/-- `UserSchema.methods.matchPassword` (models/User.js).  When the digest
is missing (absent field, or the empty string, which is falsy in
JavaScript) the method throws; the catch block rethrows with the prefix
`Error al comparar las contraseñas: `.  Otherwise it returns the result
of the bcrypt comparison. -/
def User.matchPassword (compare : String → String → Bool) (u : User)
    (password : String) : MatchResult :=
  match u.password with
  | none => .thrown ("Error al comparar las contraseñas: " ++ missingDigestMsg)
  | some digest =>
    if digest = "" then
      .thrown ("Error al comparar las contraseñas: " ++ missingDigestMsg)
    else
      .ok (compare password digest)

/-- `UserSchema.statics.findByEmailWithPassword` (models/User.js):
`findOne({ email, isActive: true }).select("+password")` — the first
stored document whose email matches and which is active. -/
def findByEmailWithPassword (store : List User) (email : String) : Option User :=
  store.find? (fun u => u.email == email && u.isActive)

/-- Failure message for an email that matches no active account. -/
def unknownEmailMsg : String := "Correo electrónico no existe en el sistema."

/-- Failure message for a wrong password on an existing account. -/
def wrongPasswordMsg : String := "La contraseña ingresada no es correcta. Intente nuevamente."

/-- Result of the passport verify callback: `done(null, false, {message})`
is a failure carrying the message shown to the caller, `done(null, user)`
is a success that establishes a session for the user. -/
inductive AuthResult where
  | failure (message : String)
  | success (u : User)
  deriving Repr, DecidableEq

/-- The `LocalStrategy` verify callback from the passport configuration
file.  It looks the user up by email, compares the password, and reports
the outcome.  It never consults `isLocked`, never calls
`updateLoginAttempts`, and performs no write to the user store. -/
def localStrategy (compare : String → String → Bool) (store : List User)
    (email password : String) : AuthResult :=
  match findByEmailWithPassword store email with
  | none => .failure unknownEmailMsg
  | some user =>
    match user.matchPassword compare password with
    | .thrown msg => .failure ("Error verificando credenciales: " ++ msg)
    | .ok false => .failure wrongPasswordMsg
    | .ok true => .success user

/-- A concrete stand-in for bcrypt comparison, used in closed theorems:
the plaintext matches exactly one stored digest string. -/
def eqCompare : String → String → Bool := fun p d => p == d

/-- A freshly registered user with no failed attempts. -/
def anaFresh : User :=
  { name := "Ana", email := "ana@example.com", password := some "Secret123",
    isActive := true, loginAttempts := 0, lockUntil := none, lastLogin := none }

/-- `n` failed login attempts recorded through `updateLoginAttempts`, all
at time `now`. -/
def recordFailures (now : Nat) : Nat → User → User
  | 0, u => u
  | n + 1, u => recordFailures now n (u.updateLoginAttempts false now)

/-- Ana after five consecutive failed attempts recorded at time 0. -/
def anaLocked : User := recordFailures 0 5 anaFresh

/-- A user document whose stored digest is absent (for example looked up
without selecting the password field). -/
def betoNoDigest : User :=
  { name := "Beto", email := "beto@example.com", password := none,
    isActive := true, loginAttempts := 0, lockUntil := none, lastLogin := none }

/-- JavaScript whitespace characters relevant to the string trim method:
space, tab, line feed, carriage return, vertical tab, form feed. -/
def isJsWhitespace (c : Char) : Bool :=
  c == ' ' || c == '\t' || c == '\n' || c == '\r' ||
    c == Char.ofNat 11 || c == Char.ofNat 12

/-- The JavaScript string trim on the underlying character list: drop
whitespace from the front, then from the back. -/
def trimChars (l : List Char) : List Char :=
  ((l.dropWhile isJsWhitespace).reverse.dropWhile isJsWhitespace).reverse

/-- The JavaScript string trim method. -/
def jsTrim (s : String) : String := ⟨trimChars s.data⟩

/-- The global regex replace of `<[^>]*>` by the empty string (the
description setter in models/Note.js), as a single left-to-right scan:
outside a tag a `<` opens a pending tag; inside one, any character other
than `>` is buffered, and a `>` discards the buffered tag; a tag still
pending at the end of the input never matched the pattern and is emitted
unchanged. -/
def stripTagsGo : Option (List Char) → List Char → List Char
  | none, [] => []
  | some pending, [] => pending
  | none, c :: rest =>
    if c == '<' then stripTagsGo (some [c]) rest
    else c :: stripTagsGo none rest
  | some pending, c :: rest =>
    if c == '>' then stripTagsGo none rest
    else stripTagsGo (some (pending ++ [c])) rest

/-- The description sanitizer of models/Note.js: remove every
`<[^>]*>` occurrence. -/
def stripHtmlTags (s : String) : String := ⟨stripTagsGo none s.data⟩

/-- Mongoose setter chain for a note title (models/Note.js): only
`trim: true`. -/
def setTitle (v : String) : String := jsTrim v

/-- Mongoose setter chain for a note description (models/Note.js): the
custom setter strips HTML tags, then the trim option trims the result. -/
def setDescription (v : String) : String := jsTrim (stripHtmlTags v)

/-- A note document (NoteSchema in models/Note.js).  `user` holds the
owning user id; the controller compares ids by value, stringifying both
sides. -/
structure Note where
  id : String
  title : String
  description : String
  user : String
  isActive : Bool
  createdAt : Nat
  updatedAt : Nat
  deriving Repr, DecidableEq

/-- Mongoose save-time validation of a note (models/Note.js): `required`
rejects absent or empty values and `maxlength` bounds the title (30) and
the description (500); validation sees the values after the setters have
run. -/
def validNote (n : Note) : Bool :=
  n.title != "" && decide (n.title.length ≤ 30) &&
    n.description != "" && decide (n.description.length ≤ 500) &&
    n.user != ""

/-- The findById query of the note model, after the id has been cast to
an ObjectId.  Unlike the find query it is not subject to the pre-find
hook that injects `isActive: true`, so it returns inactive notes too.
The cast step itself — Mongoose raises a CastError before any lookup
when the id does not parse as an ObjectId — is modelled where a raw
request id can reach the query, in `updateNoteCast` and
`deleteNoteCast`; `renderEditForm` never lets such an id through its
format guard. -/
def findById (store : List Note) (noteId : String) : Option Note :=
  store.find? (fun n => n.id == noteId)

/-- Persisting a modified document: the stored row with the same id is
replaced, nothing is inserted or removed. -/
def saveReplace (store : List Note) (n : Note) : List Note :=
  store.map (fun m => if m.id == n.id then n else m)

/-- Outcome of a note mutation as flashed by the controller: `ok` is the
success redirect, `notFound` the missing-note redirect, `forbidden` the
ownership-mismatch redirect, `saveError` the catch branch reached when
the save-time validation or persistence fails. -/
inductive NoteOutcome where
  | ok
  | notFound
  | forbidden
  | saveError
  deriving Repr, DecidableEq

/-- `createNewNote` (notes.controller.js): trims the request fields,
builds the note — the schema setters then apply — and saves it with
`isActive` defaulted to true; a failing save-time validation lands in
the catch branch and leaves the store unchanged. -/
def createNewNote (store : List Note) (requesterId title description newId : String)
    (now : Nat) : NoteOutcome × List Note :=
  let n : Note :=
    { id := newId, title := setTitle (jsTrim title),
      description := setDescription (jsTrim description),
      user := requesterId, isActive := true, createdAt := now, updatedAt := now }
  if validNote n then (.ok, store ++ [n]) else (.saveError, store)

/-- `updateNote` (notes.controller.js): fetch by id, reject when the note
is missing, reject when the requester is not the owner — before any
mutation — otherwise assign the trimmed fields (schema setters apply),
bump `updatedAt`, and save. -/
def updateNote (store : List Note) (requesterId noteId title description : String)
    (now : Nat) : NoteOutcome × List Note :=
  match findById store noteId with
  | none => (.notFound, store)
  | some note =>
    if note.user ≠ requesterId then (.forbidden, store)
    else
      let note' : Note :=
        { note with title := setTitle (jsTrim title),
                    description := setDescription (jsTrim description),
                    updatedAt := now }
      if validNote note' then (.ok, saveReplace store note') else (.saveError, store)

/-- `deleteNote` (notes.controller.js): fetch by id, reject when the note
is missing or the requester is not the owner, otherwise deactivate —
`isActive := false` followed by a save.  When the note is already
inactive the assignment changes no path, so the save persists nothing
and the store is unchanged; the row is never removed. -/
def deleteNote (store : List Note) (requesterId noteId : String) (now : Nat) :
    NoteOutcome × List Note :=
  match findById store noteId with
  | none => (.notFound, store)
  | some note =>
    if note.user ≠ requesterId then (.forbidden, store)
    else if note.isActive then
      (.ok, saveReplace store { note with isActive := false, updatedAt := now })
    else (.ok, store)

/-- Hex digit as required of a MongoDB ObjectId character. -/
def isHexChar (c : Char) : Bool :=
  (decide ('0' ≤ c) && decide (c ≤ '9')) ||
    (decide ('a' ≤ c) && decide (c ≤ 'f')) ||
    (decide ('A' ≤ c) && decide (c ≤ 'F'))

/-- The ObjectId format: a full match of 24 hex digits.  This is both
what the guard regex of `renderEditForm` tests and what the Mongoose
ObjectId cast requires of a 24-character string id. -/
def isValidObjectId (s : String) : Bool :=
  s.data.length == 24 && s.data.all isHexChar

/-- `updateNote` as reached with a raw request id: Note.findById first
casts the id to an ObjectId, and an id that does not parse (not 24 hex
characters) raises a CastError before any lookup runs — uniformly for
every store — which the controller's catch turns into the generic
update-failure flash.  A parsable id proceeds as `updateNote`. -/
def updateNoteCast (store : List Note) (requesterId noteId title description : String)
    (now : Nat) : Except String (NoteOutcome × List Note) :=
  if isValidObjectId noteId then
    .ok (updateNote store requesterId noteId title description now)
  else
    .error ("Error al actualizar la nota")

/-- `deleteNote` as reached with a raw request id: the same ObjectId
cast step as for `updateNoteCast`, with the controller's catch flashing
the generic delete-failure message on a CastError. -/
def deleteNoteCast (store : List Note) (requesterId noteId : String) (now : Nat) :
    Except String (NoteOutcome × List Note) :=
  if isValidObjectId noteId then
    .ok (deleteNote store requesterId noteId now)
  else
    .error ("Error al eliminar la nota")

/-- Comparison used by the note listing: `sort({ updatedAt: -1 })`, most
recently updated first. -/
def byUpdatedAtDesc (a b : Note) : Bool := decide (b.updatedAt ≤ a.updatedAt)

/-- Insertion step of sorting by descending `updatedAt`. -/
def insertByUpdatedAt (n : Note) : List Note → List Note
  | [] => [n]
  | m :: rest =>
    if byUpdatedAtDesc n m then n :: m :: rest
    else m :: insertByUpdatedAt n rest

/-- Sorting by descending `updatedAt` (insertion sort). -/
def sortByUpdatedAtDesc : List Note → List Note
  | [] => []
  | n :: rest => insertByUpdatedAt n (sortByUpdatedAtDesc rest)

/-- The query filter built by `renderNotes` (notes.controller.js): only
the requesting user's notes, only active ones, and — when a search term
is given — only those whose title or description matches it.  The
regular-expression test is abstracted as the parameter `rtest`. -/
def noteMatches (rtest : String → String → Bool) (ownerId search : String)
    (n : Note) : Bool :=
  n.user == ownerId && n.isActive &&
    (search == "" || (rtest n.title search || rtest n.description search))

/-- `renderNotes` (notes.controller.js): filter, sort by `updatedAt`
descending, then apply offset pagination (skip and limit). -/
def renderNotes (rtest : String → String → Bool) (store : List Note)
    (ownerId search : String) (page limit : Nat) : List Note :=
  ((sortByUpdatedAtDesc (store.filter (noteMatches rtest ownerId search))).drop
      ((page - 1) * limit)).take limit

/-- Result of `renderEditForm` (notes.controller.js): either a redirect
to the note list carrying a flashed error message, or a render of the
edit form for the fetched note. -/
inductive EditFormResult where
  | redirectNotas (errorMsg : String)
  | render (n : Note)
  deriving Repr, DecidableEq

/-- `renderEditForm` (notes.controller.js): an id failing the ObjectId
format check is rejected before the note fetch; a missing note and an
ownership mismatch also redirect, after the fetch. -/
def renderEditForm (store : List Note) (requesterId noteId : String) : EditFormResult :=
  if !(isValidObjectId noteId) then .redirectNotas ("ID de nota inválido")
  else
    match findById store noteId with
    | none => .redirectNotas ("La nota solicitada no existe")
    | some note =>
      if note.user ≠ requesterId then
        .redirectNotas ("No tienes permiso para editar esta nota")
      else .render note

/-- An active stored note owned by user u1. -/
def nota1 : Note :=
  { id := "aaaaaaaaaaaaaaaaaaaaaaaa", title := "Compras",
    description := "Lista de compras", user := "u1", isActive := true,
    createdAt := 10, updatedAt := 20 }

/-- An inactive (soft-deleted) stored note owned by user u1. -/
def nota2 : Note :=
  { id := "bbbbbbbbbbbbbbbbbbbbbbbb", title := "Vieja",
    description := "Nota vieja", user := "u1", isActive := false,
    createdAt := 1, updatedAt := 2 }

/-- Claim C1: after 5 consecutive failed attempts recorded by
`updateLoginAttempts` the account is locked (`isLocked` true, `lockUntil`
30 minutes out), yet the login strategy still accepts a 6th attempt with
the correct password while the lock is in force: it returns success —
establishing a session — instead of rejecting with "temporarily locked",
because the strategy never consults the lockout state. -/
theorem lockout_never_enforced_on_login :
    anaLocked.loginAttempts = 5 ∧
    anaLocked.lockUntil = some lockDurationMs ∧
    anaLocked.isLocked 60000 = true ∧
    localStrategy eqCompare [anaLocked] "ana@example.com" "Secret123" =
      .success anaLocked := by
  decide

/-- Claim C2 counterexample: with one registered user, a failed attempt
with an unknown email and a failed attempt with the registered email but
a wrong password return different messages, so the caller can tell
whether the email exists. -/
theorem failure_messages_distinguish_email_cex :
    localStrategy eqCompare [anaFresh] "nadie@example.com" "x" =
      .failure unknownEmailMsg ∧
    localStrategy eqCompare [anaFresh] "ana@example.com" "wrong" =
      .failure wrongPasswordMsg ∧
    unknownEmailMsg ≠ wrongPasswordMsg := by
  decide

/-- Claim C2 amended: the two failure cases return distinct fixed
messages — an email matching no active account yields "Correo
electrónico no existe en el sistema." while a wrong password for an
existing account yields "La contraseña ingresada no es correcta. Intente
nuevamente." — so the response does distinguish "no such email" from
"wrong password". -/
theorem failure_message_reveals_email_existence
    (compare : String → String → Bool) (store : List User)
    (e1 p1 e2 p2 : String) (u : User)
    (h1 : findByEmailWithPassword store e1 = none)
    (h2 : findByEmailWithPassword store e2 = some u)
    (h3 : u.matchPassword compare p2 = .ok false) :
    localStrategy compare store e1 p1 = .failure unknownEmailMsg ∧
    localStrategy compare store e2 p2 = .failure wrongPasswordMsg ∧
    unknownEmailMsg ≠ wrongPasswordMsg := by
  refine ⟨?_, ?_, by decide⟩
  · simp [localStrategy, h1]
  · simp [localStrategy, h2, h3]

/-- Witness for `failure_message_reveals_email_existence` at a concrete
store and pair of attempts. -/
theorem failure_message_reveals_email_existence_witness :
    localStrategy eqCompare [anaFresh] "nadie2@example.com" "p" =
      .failure unknownEmailMsg ∧
    localStrategy eqCompare [anaFresh] "ana@example.com" "bad" =
      .failure wrongPasswordMsg ∧
    unknownEmailMsg ≠ wrongPasswordMsg :=
  failure_message_reveals_email_existence eqCompare [anaFresh]
    "nadie2@example.com" "p" "ana@example.com" "bad" anaFresh
    (by decide) (by decide) (by decide)

/-- Claim C3 counterexample: Ana is locked at time 60000, yet recording a
further failed attempt increments `loginAttempts` from 5 to 6 and moves
`lockUntil` forward to 30 minutes past the new attempt, extending the
lock. -/
theorem locked_failed_attempt_increments_cex :
    anaLocked.isLocked 60000 = true ∧
    anaLocked.loginAttempts = 5 ∧
    (anaLocked.updateLoginAttempts false 60000).loginAttempts = 6 ∧
    anaLocked.lockUntil = some lockDurationMs ∧
    (anaLocked.updateLoginAttempts false 60000).lockUntil =
      some (60000 + lockDurationMs) ∧
    60000 + lockDurationMs ≠ lockDurationMs := by
  decide

/-- Claim C3 amended: `updateLoginAttempts` performs no lock re-check, so
for a user who is currently locked a further recorded failure still
increments `loginAttempts` by one and — the count then being at least
5 — resets `lockUntil` to 30 minutes after the current time, extending
the lock. -/
theorem locked_failed_attempt_increments_and_extends (u : User) (now : Nat)
    (hlock : u.isLocked now = true) :
    (u.updateLoginAttempts false now).loginAttempts = u.loginAttempts + 1 ∧
    (5 ≤ u.loginAttempts + 1 →
      (u.updateLoginAttempts false now).lockUntil = some (now + lockDurationMs)) := by
  constructor
  · by_cases h : 5 ≤ u.loginAttempts + 1 <;>
      simp [User.updateLoginAttempts, h]
  · intro h5
    simp [User.updateLoginAttempts, h5]

/-- Witness for `locked_failed_attempt_increments_and_extends` at the
locked concrete user. -/
theorem locked_failed_attempt_increments_and_extends_witness :
    (anaLocked.updateLoginAttempts false 60000).loginAttempts =
      anaLocked.loginAttempts + 1 ∧
    (5 ≤ anaLocked.loginAttempts + 1 →
      (anaLocked.updateLoginAttempts false 60000).lockUntil =
        some (60000 + lockDurationMs)) :=
  locked_failed_attempt_increments_and_extends anaLocked 60000 (by decide)

/-- Claim C8 counterexample: for a user document without a digest,
`matchPassword` does not return false — it throws — and the strategy's
caller-visible failure message embeds the thrown text, identifying
exactly which part of the check failed. -/
theorem missing_digest_throws_and_leaks_cex :
    betoNoDigest.matchPassword eqCompare "pw" ≠ .ok false ∧
    betoNoDigest.matchPassword eqCompare "pw" =
      .thrown ("Error al comparar las contraseñas: " ++ missingDigestMsg) ∧
    localStrategy eqCompare [betoNoDigest] "beto@example.com" "pw" =
      .failure ("Error verificando credenciales: " ++
        ("Error al comparar las contraseñas: " ++ missingDigestMsg)) := by
  decide

/-- Claim C8 amended: when the stored digest is absent the attempt is
rejected without a session being established, but not by returning
false: `matchPassword` throws, and the failure message handed to the
caller embeds the thrown error text, so the caller learns which part of
the check failed. -/
theorem missing_digest_fails_closed_but_leaks
    (compare : String → String → Bool) (store : List User)
    (email pw : String) (u : User)
    (h1 : findByEmailWithPassword store email = some u)
    (h2 : u.password = none) :
    u.matchPassword compare pw =
      .thrown ("Error al comparar las contraseñas: " ++ missingDigestMsg) ∧
    localStrategy compare store email pw =
      .failure ("Error verificando credenciales: " ++
        ("Error al comparar las contraseñas: " ++ missingDigestMsg)) := by
  have hm : u.matchPassword compare pw =
      .thrown ("Error al comparar las contraseñas: " ++ missingDigestMsg) := by
    simp [User.matchPassword, h2]
  exact ⟨hm, by simp [localStrategy, h1, hm]⟩

/-- Witness for `missing_digest_fails_closed_but_leaks` at the concrete
digest-less user. -/
theorem missing_digest_fails_closed_but_leaks_witness :
    betoNoDigest.matchPassword eqCompare "pw2" =
      .thrown ("Error al comparar las contraseñas: " ++ missingDigestMsg) ∧
    localStrategy eqCompare [betoNoDigest] "beto@example.com" "pw2" =
      .failure ("Error verificando credenciales: " ++
        ("Error al comparar las contraseñas: " ++ missingDigestMsg)) :=
  missing_digest_fails_closed_but_leaks eqCompare [betoNoDigest]
    "beto@example.com" "pw2" betoNoDigest (by decide) (by decide)

/-! ### Helper lemmas about trimming, tag stripping, and sorting -/

/-- Dropping a maximal whitespace prefix twice is the same as once. -/
theorem dropWhile_idem (p : Char → Bool) (l : List Char) :
    (l.dropWhile p).dropWhile p = l.dropWhile p := by
  induction l with
  | nil => rfl
  | cons a t ih =>
    cases h : p a
    · simp [List.dropWhile_cons, h]
    · simp [List.dropWhile_cons, h, ih]

/-- The head character surviving a dropWhile fails the predicate. -/
theorem dropWhile_head_false (p : Char → Bool) (l : List Char) (a : Char)
    (t : List Char) (h : l.dropWhile p = a :: t) : p a = false := by
  induction l with
  | nil => simp at h
  | cons b r ih =>
    rw [List.dropWhile_cons] at h
    split at h
    · exact ih h
    · rename_i hb
      cases h
      simpa using hb

/-- A trimmed list has no leading whitespace left. -/
theorem dropWhile_trimChars (m : List Char) :
    (trimChars m).dropWhile isJsWhitespace = trimChars m := by
  have hpre : trimChars m <+: m.dropWhile isJsWhitespace := by
    rw [← List.reverse_suffix]
    simpa [trimChars] using
      (List.dropWhile_suffix (l := (m.dropWhile isJsWhitespace).reverse) isJsWhitespace)
  cases hcase : trimChars m with
  | nil => simp
  | cons a t =>
    obtain ⟨s, hsuf⟩ := hpre
    rw [hcase] at hsuf
    have hfa : isJsWhitespace a = false := by
      apply dropWhile_head_false isJsWhitespace m a (t ++ s)
      rw [← hsuf]
      simp
    rw [List.dropWhile_cons, hfa]
    simp

/-- Trimming is idempotent. -/
theorem trimChars_idem (l : List Char) : trimChars (trimChars l) = trimChars l := by
  have h1 : trimChars (trimChars l) =
      (((trimChars l).dropWhile isJsWhitespace).reverse.dropWhile isJsWhitespace).reverse := rfl
  rw [h1, dropWhile_trimChars]
  have h2 : (trimChars l).reverse =
      (l.dropWhile isJsWhitespace).reverse.dropWhile isJsWhitespace := by
    simp [trimChars]
  rw [h2, dropWhile_idem]
  simp [trimChars]

/-- The string trim is idempotent. -/
theorem jsTrim_idem (s : String) : jsTrim (jsTrim s) = jsTrim s := by
  show (⟨trimChars (trimChars s.data)⟩ : String) = ⟨trimChars s.data⟩
  rw [trimChars_idem]

/-- Trimming never lengthens a list. -/
theorem trimChars_length_le (l : List Char) : (trimChars l).length ≤ l.length := by
  have h1 : (l.dropWhile isJsWhitespace).length ≤ l.length :=
    (List.dropWhile_suffix _).length_le
  have h2 : ((l.dropWhile isJsWhitespace).reverse.dropWhile isJsWhitespace).length ≤
      (l.dropWhile isJsWhitespace).reverse.length :=
    (List.dropWhile_suffix _).length_le
  simp only [trimChars, List.length_reverse] at h2 ⊢
  omega

/-- Trimming never lengthens a string. -/
theorem jsTrim_length_le (s : String) : (jsTrim s).length ≤ s.length :=
  trimChars_length_le s.data

/-- The tag-stripping scan never lengthens its input beyond the pending
buffer plus the remaining characters. -/
theorem stripTagsGo_length_le (l : List Char) :
    ∀ pend : Option (List Char),
      (stripTagsGo pend l).length ≤ (pend.getD []).length + l.length := by
  induction l with
  | nil => intro pend; cases pend <;> simp [stripTagsGo]
  | cons c rest ih =>
    intro pend
    cases pend with
    | none =>
      cases h : c == '<'
      · have := ih none
        simp only [stripTagsGo, h, Bool.false_eq_true, if_false, List.length_cons] at *
        simpa using Nat.succ_le_succ (by simpa using this)
      · have := ih (some [c])
        simp only [stripTagsGo, h, if_true] at *
        simp at this ⊢
        omega
    | some pending =>
      cases h : c == '>'
      · have := ih (some (pending ++ [c]))
        simp only [stripTagsGo, h, Bool.false_eq_true, if_false] at *
        simp at this ⊢
        omega
      · have := ih none
        simp only [stripTagsGo, h, if_true] at *
        simp at this ⊢
        omega

/-- Tag stripping never lengthens a string. -/
theorem stripHtmlTags_length_le (s : String) : (stripHtmlTags s).length ≤ s.length := by
  have := stripTagsGo_length_le s.data none
  simpa using this

/-- Membership is preserved by the insertion step. -/
theorem mem_insertByUpdatedAt (a n : Note) (l : List Note) :
    a ∈ insertByUpdatedAt n l ↔ a = n ∨ a ∈ l := by
  induction l with
  | nil => simp [insertByUpdatedAt]
  | cons m rest ih =>
    cases hc : byUpdatedAtDesc n m
    · simp only [insertByUpdatedAt, hc, Bool.false_eq_true, if_false, List.mem_cons, ih]
      tauto
    · simp only [insertByUpdatedAt, hc, if_true, List.mem_cons]

/-- Sorting changes membership not at all. -/
theorem mem_sortByUpdatedAtDesc (a : Note) (l : List Note) :
    a ∈ sortByUpdatedAtDesc l ↔ a ∈ l := by
  induction l with
  | nil => simp [sortByUpdatedAtDesc]
  | cons n rest ih =>
    show a ∈ insertByUpdatedAt n (sortByUpdatedAtDesc rest) ↔ _
    rw [mem_insertByUpdatedAt, ih]
    simp

/-- The insertion step preserves descending `updatedAt` order. -/
theorem sorted_insertByUpdatedAt (n : Note) (l : List Note)
    (h : l.Pairwise (fun a b => b.updatedAt ≤ a.updatedAt)) :
    (insertByUpdatedAt n l).Pairwise (fun a b => b.updatedAt ≤ a.updatedAt) := by
  induction l with
  | nil => simp [insertByUpdatedAt]
  | cons m rest ih =>
    rcases List.pairwise_cons.mp h with ⟨hm, hrest⟩
    cases hc : byUpdatedAtDesc n m
    · have hnm : n.updatedAt ≤ m.updatedAt := by
        simp [byUpdatedAtDesc] at hc
        omega
      simp only [insertByUpdatedAt, hc, Bool.false_eq_true, if_false]
      refine List.pairwise_cons.mpr ⟨?_, ih hrest⟩
      intro x hx
      rcases (mem_insertByUpdatedAt x n rest).mp hx with rfl | hx2
      · exact hnm
      · exact hm x hx2
    · have hmn : m.updatedAt ≤ n.updatedAt := by simpa [byUpdatedAtDesc] using hc
      simp only [insertByUpdatedAt, hc, if_true]
      refine List.pairwise_cons.mpr ⟨?_, h⟩
      intro x hx
      rcases List.mem_cons.mp hx with rfl | hx2
      · exact hmn
      · exact le_trans (hm x hx2) hmn

/-- Insertion sort by descending `updatedAt` yields a descending list. -/
theorem sorted_sortByUpdatedAtDesc (l : List Note) :
    (sortByUpdatedAtDesc l).Pairwise (fun a b => b.updatedAt ≤ a.updatedAt) := by
  induction l with
  | nil => simp [sortByUpdatedAtDesc]
  | cons n rest ih => exact sorted_insertByUpdatedAt n _ ih

/-! ### The note claims -/

/-- Claim C4: when the note exists and the requester is not its owner,
both `updateNote` and `deleteNote` answer Forbidden and leave the store —
hence every stored field of the note — unchanged. -/
theorem nonowner_update_delete_forbidden (store : List Note)
    (requesterId noteId title description : String) (now : Nat) (note : Note)
    (hfind : findById store noteId = some note)
    (hown : note.user ≠ requesterId) :
    updateNote store requesterId noteId title description now = (.forbidden, store) ∧
    deleteNote store requesterId noteId now = (.forbidden, store) := by
  unfold updateNote deleteNote
  rw [hfind]
  simp [hown]

/-- Witness for `nonowner_update_delete_forbidden`: user u2 attempting to
mutate u1's note. -/
theorem nonowner_update_delete_forbidden_witness :
    updateNote [nota1] "u2" "aaaaaaaaaaaaaaaaaaaaaaaa" "T" "D" 99 =
      (.forbidden, [nota1]) ∧
    deleteNote [nota1] "u2" "aaaaaaaaaaaaaaaaaaaaaaaa" 99 = (.forbidden, [nota1]) :=
  nonowner_update_delete_forbidden [nota1] "u2" "aaaaaaaaaaaaaaaaaaaaaaaa" "T" "D" 99
    nota1 (by decide) (by decide)

/-- Claim C5: every note in a `renderNotes` result page is active and
owned by the requesting owner, for every search value and page. -/
theorem renderNotes_only_active_owned (rtest : String → String → Bool)
    (store : List Note) (ownerId search : String) (page limit : Nat) (n : Note)
    (h : n ∈ renderNotes rtest store ownerId search page limit) :
    n.isActive = true ∧ n.user = ownerId := by
  unfold renderNotes at h
  have h1 : n ∈ sortByUpdatedAtDesc (store.filter (noteMatches rtest ownerId search)) :=
    List.mem_of_mem_drop (List.mem_of_mem_take h)
  rw [mem_sortByUpdatedAtDesc] at h1
  have h2 := List.of_mem_filter h1
  simp [noteMatches] at h2
  exact ⟨h2.1.2, h2.1.1⟩

/-- Witness for `renderNotes_only_active_owned` at a singleton store. -/
theorem renderNotes_only_active_owned_witness :
    nota1.isActive = true ∧ nota1.user = "u1" :=
  renderNotes_only_active_owned (fun _ _ => true) [nota1] "u1" "" 1 10 nota1 (by decide)

/-- Claim C6: a `renderNotes` result page is ordered most recently
updated first — pairwise descending `updatedAt` — for every search value
and page. -/
theorem renderNotes_sorted_by_updatedAt_desc (rtest : String → String → Bool)
    (store : List Note) (ownerId search : String) (page limit : Nat) :
    (renderNotes rtest store ownerId search page limit).Pairwise
      (fun a b => b.updatedAt ≤ a.updatedAt) := by
  unfold renderNotes
  exact ((sorted_sortByUpdatedAtDesc _).sublist (List.drop_sublist _ _)).sublist
    (List.take_sublist _ _)

/-- Claim C9: `deleteNote` on an already-inactive note owned by the
requester succeeds and changes nothing: the store is returned as it was
and the row is still present. -/
theorem deleteNote_idempotent_on_inactive (store : List Note)
    (requesterId noteId : String) (now : Nat) (note : Note)
    (hfind : findById store noteId = some note)
    (hown : note.user = requesterId)
    (hinactive : note.isActive = false) :
    deleteNote store requesterId noteId now = (.ok, store) := by
  unfold deleteNote
  rw [hfind]
  simp [hown, hinactive]

/-- Witness for `deleteNote_idempotent_on_inactive`: deleting the
already-inactive nota2 again. -/
theorem deleteNote_idempotent_on_inactive_witness :
    deleteNote [nota2] "u1" "bbbbbbbbbbbbbbbbbbbbbbbb" 50 = (.ok, [nota2]) :=
  deleteNote_idempotent_on_inactive [nota2] "u1" "bbbbbbbbbbbbbbbbbbbbbbbb" 50 nota2
    (by decide) (by decide) (by decide)

/-- Claim C10: an id that is not 24 hex characters makes `renderEditForm`
redirect with the invalid-id message, with a result independent of the
store (no lookup can influence it), so only ObjectId-formatted ids ever
reach its note fetch; the update and delete handlers have no such
guard — they pass the raw id on to the fetch, whose ObjectId cast fails
uniformly for every store, landing in the catch branch with the generic
error message rather than the invalid-id rejection. -/
theorem renderEditForm_rejects_invalid_id (store store2 : List Note)
    (requesterId noteId title description : String) (now : Nat)
    (hbad : isValidObjectId noteId = false) :
    renderEditForm store requesterId noteId = .redirectNotas ("ID de nota inválido") ∧
    renderEditForm store2 requesterId noteId = renderEditForm store requesterId noteId ∧
    updateNoteCast store requesterId noteId title description now =
      .error ("Error al actualizar la nota") ∧
    deleteNoteCast store requesterId noteId now =
      .error ("Error al eliminar la nota") := by
  have h1 : ∀ s : List Note,
      renderEditForm s requesterId noteId = .redirectNotas ("ID de nota inválido") := by
    intro s
    unfold renderEditForm
    simp [hbad]
  refine ⟨h1 store, (h1 store2).trans (h1 store).symm, ?_, ?_⟩
  · unfold updateNoteCast
    simp [hbad]
  · unfold deleteNoteCast
    simp [hbad]

/-- Witness for `renderEditForm_rejects_invalid_id` at the malformed id
zzz. -/
theorem renderEditForm_rejects_invalid_id_witness :
    renderEditForm [nota1] "u1" "zzz" = .redirectNotas ("ID de nota inválido") ∧
    renderEditForm [] "u1" "zzz" = renderEditForm [nota1] "u1" "zzz" ∧
    updateNoteCast [nota1] "u1" "zzz" "T" "D" 3 =
      .error ("Error al actualizar la nota") ∧
    deleteNoteCast [nota1] "u1" "zzz" 3 = .error ("Error al eliminar la nota") :=
  renderEditForm_rejects_invalid_id [nota1] [] "u1" "zzz" "T" "D" 3 (by decide)

/-- Claim C7: creating a note from inputs within the length bounds and
then fetching it returns the note with the trimmed title, the trimmed
and tag-stripped description, and `isActive` true. -/
theorem create_then_get_trimmed_stripped_active
    (store : List Note) (requesterId title description newId : String) (now : Nat)
    (hfresh : findById store newId = none)
    (htne : jsTrim title ≠ "")
    (hdne : jsTrim (stripHtmlTags (jsTrim description)) ≠ "")
    (hune : requesterId ≠ "")
    (htlen : title.length ≤ 30)
    (hdlen : description.length ≤ 500) :
    (createNewNote store requesterId title description newId now).1 = .ok ∧
    ∃ n : Note,
      findById (createNewNote store requesterId title description newId now).2 newId
        = some n ∧
      n.title = jsTrim title ∧
      n.description = jsTrim (stripHtmlTags (jsTrim description)) ∧
      n.isActive = true := by
  have htitle : setTitle (jsTrim title) = jsTrim title := jsTrim_idem title
  have hvalid : validNote
      { id := newId, title := setTitle (jsTrim title),
        description := setDescription (jsTrim description),
        user := requesterId, isActive := true, createdAt := now, updatedAt := now }
      = true := by
    simp only [validNote, setDescription, htitle, Bool.and_eq_true, bne_iff_ne,
      decide_eq_true_eq]
    refine ⟨⟨⟨⟨htne, ?_⟩, hdne⟩, ?_⟩, hune⟩
    · exact le_trans (jsTrim_length_le title) htlen
    · calc (jsTrim (stripHtmlTags (jsTrim description))).length
          ≤ (stripHtmlTags (jsTrim description)).length :=
            jsTrim_length_le _
        _ ≤ (jsTrim description).length := stripHtmlTags_length_le _
        _ ≤ description.length := jsTrim_length_le _
        _ ≤ 500 := hdlen
  unfold createNewNote
  simp only [hvalid, if_true]
  refine ⟨trivial, ?_⟩
  refine ⟨{ id := newId, title := setTitle (jsTrim title),
            description := setDescription (jsTrim description),
            user := requesterId, isActive := true, createdAt := now,
            updatedAt := now }, ?_, htitle, rfl, rfl⟩
  unfold findById at hfresh ⊢
  rw [List.find?_append, hfresh]
  simp

/-- Witness for `create_then_get_trimmed_stripped_active` at a concrete
creation. -/
theorem create_then_get_trimmed_stripped_active_witness :
    (createNewNote [] "u1" "  Lista  " " <b>pan</b> y leche " "cccccccccccccccccccccccc" 7).1
      = .ok ∧
    ∃ n : Note,
      findById
          (createNewNote [] "u1" "  Lista  " " <b>pan</b> y leche " "cccccccccccccccccccccccc" 7).2
          "cccccccccccccccccccccccc" = some n ∧
      n.title = jsTrim "  Lista  " ∧
      n.description = jsTrim (stripHtmlTags (jsTrim " <b>pan</b> y leche ")) ∧
      n.isActive = true :=
  create_then_get_trimmed_stripped_active [] "u1" "  Lista  " " <b>pan</b> y leche "
    "cccccccccccccccccccccccc" 7 (by decide) (by decide) (by decide) (by decide)
    (by decide) (by decide)

end Gestor
